import Mathlib

/-!
Verification of the session-region resolution and retry subsystem and the
wire-protocol client of a browser-automation client library.

The definitions below are a shallow embedding of the TypeScript source:

* `schema.ts` (Region Directory, wire client): `REGION_API_URLS`, `getApiBase`,
  `handleResponse`, and the request builders for each remote operation.
* the component library (`lib.ts`): `isBrowserbaseRegion`,
  `extractRegionFromError`, `upsertSessionMetadata`, `getSessionRegion`,
  `resolveSessionRegion`, `runWithRegionRetry`, `endSessionWithRouting`.

Asynchronous database access becomes explicit state passing over a list of
session records; remote calls become oracle functions from the attempted
region to an `Except` outcome; the orchestrator additionally emits a trace of
events (attempts, store writes, hook invocations) so that ordering and
attempt-count properties can be stated.
-/

/-- `status` field of a session record: one of active, completed, error. -/
inductive SessionStatus
  | active
  | completed
  | error
deriving DecidableEq, Repr

/-- A row of the `sessions` table (see the component schema). -/
structure SessionRecord where
  sessionId : String
  region : Option String
  startedAt : Nat
  endedAt : Option Nat
  status : SessionStatus
  operation : String
  url : String
  error : Option String
deriving DecidableEq, Repr

/-- The argument object of `upsertSessionMetadata`: every field other than
`sessionId` is optional; `none` means the field is not part of the patch. -/
structure SessionPatch where
  sessionId : String
  region : Option String := none
  status : Option SessionStatus := none
  operation : Option String := none
  url : Option String := none
  endedAt : Option Nat := none
  error : Option String := none
deriving DecidableEq, Repr

/-- `ctx.db.query("sessions").withIndex("by_sessionId", ...).first()`:
the first record with the given session id. -/
def findSession (db : List SessionRecord) (sid : String) : Option SessionRecord :=
  db.find? (fun r => r.sessionId == sid)

/-- `ctx.db.patch(existing._id, patch)`: apply the provided fields of a patch
to an existing record, leaving absent fields unchanged. -/
def applyPatch (r : SessionRecord) (p : SessionPatch) : SessionRecord :=
  { r with
    region := match p.region with | some x => some x | none => r.region
    status := p.status.getD r.status
    operation := p.operation.getD r.operation
    url := p.url.getD r.url
    endedAt := match p.endedAt with | some x => some x | none => r.endedAt
    error := match p.error with | some x => some x | none => r.error }

/-- The fresh record inserted by `upsertSessionMetadata` when no record with
the session id exists: `status` defaults to active, `operation` to
"workflow", `url` to the empty string, `startedAt` to the current time. -/
def freshRecord (p : SessionPatch) (now : Nat) : SessionRecord :=
  { sessionId := p.sessionId
    region := p.region
    startedAt := now
    endedAt := p.endedAt
    status := p.status.getD .active
    operation := p.operation.getD "workflow"
    url := p.url.getD ""
    error := p.error }

/-- The internal mutation `upsertSessionMetadata`: patch the first record
with the given session id, or insert a fresh one if none exists. -/
def upsertSessionMetadata (db : List SessionRecord) (p : SessionPatch) (now : Nat) :
    List SessionRecord :=
  match db with
  | [] => [freshRecord p now]
  | r :: rs =>
    if r.sessionId = p.sessionId then applyPatch r p :: rs
    else r :: upsertSessionMetadata rs p now

/-- `DEFAULT_BROWSERBASE_REGION` from the component library. -/
def DEFAULT_BROWSERBASE_REGION : String := "us-west-2"

/-- The `REGION_API_URLS` record from the wire client, as a partial lookup:
the four known regions map to their base hosts, anything else to nothing. -/
def REGION_API_URLS (r : String) : Option String :=
  if r = "us-west-2" then some "https://api.stagehand.browserbase.com"
  else if r = "us-east-1" then some "https://api.use1.stagehand.browserbase.com"
  else if r = "eu-central-1" then some "https://api.euc1.stagehand.browserbase.com"
  else if r = "ap-southeast-1" then some "https://api.apse1.stagehand.browserbase.com"
  else none

/-- `getApiBase`: `(region && REGION_API_URLS[region]) || REGION_API_URLS["us-west-2"]`
followed by the `/v1` suffix.  An absent or unknown region falls back to the
default region us-west-2; the function is total. -/
def getApiBase (region : Option String) : String :=
  (match region.bind REGION_API_URLS with
   | some u => u
   | none => "https://api.stagehand.browserbase.com") ++ "/v1"

/-- The internal query `getSessionRegion`: `session?.region ?? null`. -/
def getSessionRegion (db : List SessionRecord) (sid : String) : Option String :=
  (findSession db sid).bind (fun s => s.region)

/-- `resolveSessionRegion`: `storedRegion ?? fallback ?? undefined`. -/
def resolveSessionRegion (db : List SessionRecord) (sid : String)
    (fallback : Option String) : Option String :=
  match getSessionRegion db sid with
  | some r => some r
  | none => fallback

/-- C4: the Region Directory resolves each of the four known regions to its own
base URL, pairwise distinct from every other region's, and every other input
(absent, unknown, or malformed) to the default us-west-2 base URL; `getApiBase`
is a total function, so no input raises an error. -/
theorem getApiBase_known_distinct_unknown_default (s : String)
    (h1 : s ≠ "us-west-2") (h2 : s ≠ "us-east-1")
    (h3 : s ≠ "eu-central-1") (h4 : s ≠ "ap-southeast-1") :
    (getApiBase (some "us-west-2") ≠ getApiBase (some "us-east-1") ∧
     getApiBase (some "us-west-2") ≠ getApiBase (some "eu-central-1") ∧
     getApiBase (some "us-west-2") ≠ getApiBase (some "ap-southeast-1") ∧
     getApiBase (some "us-east-1") ≠ getApiBase (some "eu-central-1") ∧
     getApiBase (some "us-east-1") ≠ getApiBase (some "ap-southeast-1") ∧
     getApiBase (some "eu-central-1") ≠ getApiBase (some "ap-southeast-1")) ∧
    getApiBase (some s) = getApiBase none ∧
    getApiBase none = "https://api.stagehand.browserbase.com/v1" := by
  refine ⟨by decide, ?_, rfl⟩
  simp [getApiBase, REGION_API_URLS, h1, h2, h3, h4]

/-- Witness for C4 at the concrete garbled region string "garbled". -/
theorem getApiBase_known_distinct_unknown_default_witness :
    getApiBase (some "garbled") = getApiBase none ∧
    getApiBase none = "https://api.stagehand.browserbase.com/v1" :=
  (getApiBase_known_distinct_unknown_default "garbled"
    (by decide) (by decide) (by decide) (by decide)).2

/-- C5: region resolution is total and never fails; it returns the stored
region when one is present, otherwise the caller-supplied hint, and when both
are absent it returns nothing, which the Region Directory resolves to the
default us-west-2 base URL. -/
theorem resolveSessionRegion_spec (db : List SessionRecord) (sid : String)
    (hint : Option String) :
    (∀ r, getSessionRegion db sid = some r →
      resolveSessionRegion db sid hint = some r) ∧
    (getSessionRegion db sid = none →
      resolveSessionRegion db sid hint = hint) ∧
    (getSessionRegion db sid = none → hint = none →
      resolveSessionRegion db sid hint = none ∧
      getApiBase (resolveSessionRegion db sid hint) =
        getApiBase (some DEFAULT_BROWSERBASE_REGION)) := by
  refine ⟨fun r hr => ?_, fun hn => ?_, fun hn hh => ?_⟩
  · simp [resolveSessionRegion, hr]
  · simp [resolveSessionRegion, hn]
  · subst hh
    simp [resolveSessionRegion, hn]
    rfl

/-- Witness for C5: empty store and no hint resolve to nothing, which the
Region Directory maps to the default base URL. -/
theorem resolveSessionRegion_spec_witness :
    resolveSessionRegion [] "sess-1" none = none ∧
    getApiBase (resolveSessionRegion [] "sess-1" none) =
      getApiBase (some DEFAULT_BROWSERBASE_REGION) :=
  (resolveSessionRegion_spec [] "sess-1" none).2.2 rfl rfl

/-! ### Parsing a region out of an error message

`extractRegionFromError` runs the case-insensitive regular expression
matching `Session is in region` followed by a quoted capture of one or more
non-quote characters over the error message, taking the first match, and
keeps the capture only when it is one of the four known region literals.
The scanner below reproduces that search: at each starting position it
matches the fixed pattern case-insensitively, then captures up to the next
single quote (the capture must be non-empty and the closing quote must
exist), moving one position right on failure, exactly as the backtracking
regex engine does for this pattern. -/

/-- The single-quote character, U+0027. -/
def quoteChar : Char := Char.ofNat 39

/-- The fixed (lower-cased) text of the regex pattern up to the capture
group, ending in the opening quote. -/
def regionPattern : List Char := "session is in region ".data ++ [quoteChar]

/-- Match a lower-case pattern case-insensitively against the front of the
input, returning the rest of the input on success. -/
def ciMatchPrefix : List Char → List Char → Option (List Char)
  | [], s => some s
  | _ :: _, [] => none
  | p :: ps, c :: cs => if c.toLower = p then ciMatchPrefix ps cs else none

/-- The characters strictly before the first single quote, provided such a
quote exists. -/
def scanToQuote : List Char → Option (List Char)
  | [] => none
  | c :: cs => if c = quoteChar then some [] else (scanToQuote cs).map (c :: ·)

/-- The capture of the first successful match of the region-mismatch pattern
in the message, scanning starting positions left to right. -/
def regionMatchFrom : List Char → Option (List Char)
  | [] => none
  | c :: cs =>
    match ciMatchPrefix regionPattern (c :: cs) with
    | some rest =>
      match scanToQuote rest with
      | some l => if l = [] then regionMatchFrom cs else some l
      | none => regionMatchFrom cs
    | none => regionMatchFrom cs

/-- `isBrowserbaseRegion`: the type-guard for the four region literals. -/
def isBrowserbaseRegion (s : String) : Bool :=
  s = "us-west-2" || s = "us-east-1" || s = "eu-central-1" || s = "ap-southeast-1"

/-- `extractRegionFromError`, on the failed call's error message: the first
regex capture, kept only when it is a known region literal. -/
def extractRegionFromError (message : String) : Option String :=
  match regionMatchFrom message.data with
  | some l => if isBrowserbaseRegion (String.mk l) then some (String.mk l) else none
  | none => none

/-- A convenient builder for the service's region-mismatch message. -/
def mismatchMsg (r : String) : String :=
  String.mk ("Session is in region ".data ++ quoteChar :: r.data ++ [quoteChar])

theorem ciMatchPrefix_sound :
    ∀ (p s rest : List Char), ciMatchPrefix p s = some rest →
      ∃ c, s = c ++ rest ∧ c.map Char.toLower = p := by
  intro p
  induction p with
  | nil =>
    intro s rest h
    simp only [ciMatchPrefix, Option.some.injEq] at h
    exact ⟨[], by simp [h], rfl⟩
  | cons a ps ih =>
    intro s rest h
    cases s with
    | nil => simp [ciMatchPrefix] at h
    | cons c cs =>
      by_cases hc : c.toLower = a
      · simp only [ciMatchPrefix, hc, if_pos] at h
        obtain ⟨c1, hcs, hmap⟩ := ih cs rest h
        exact ⟨c :: c1, by simp [hcs], by simp [hmap, hc]⟩
      · simp [ciMatchPrefix, hc] at h

theorem scanToQuote_sound :
    ∀ (s l : List Char), scanToQuote s = some l →
      ∃ rest, s = l ++ quoteChar :: rest := by
  intro s
  induction s with
  | nil => intro l h; simp [scanToQuote] at h
  | cons c cs ih =>
    intro l h
    by_cases hc : c = quoteChar
    · simp only [scanToQuote, hc, if_pos, Option.some.injEq] at h
      exact ⟨cs, by simp [hc, ← h]⟩
    · simp only [scanToQuote, hc, if_neg, not_false_iff, Option.map_eq_some'] at h
      obtain ⟨l0, hl0, hl⟩ := h
      obtain ⟨rest, hrest⟩ := ih l0 hl0
      exact ⟨rest, by simp [hrest, ← hl]⟩

theorem regionMatchFrom_sound :
    ∀ (s l : List Char), regionMatchFrom s = some l →
      ∃ pre c rest, s = pre ++ c ++ l ++ quoteChar :: rest ∧
        c.map Char.toLower = regionPattern ∧ l ≠ [] := by
  intro s
  induction s with
  | nil => intro l h; simp [regionMatchFrom] at h
  | cons ch cs ih =>
    intro l h
    unfold regionMatchFrom at h
    cases hp : ciMatchPrefix regionPattern (ch :: cs) with
    | none =>
      rw [hp] at h
      obtain ⟨pre, c, rest, hs, hmap, hne⟩ := ih l h
      exact ⟨ch :: pre, c, rest, by simp [hs], hmap, hne⟩
    | some rest0 =>
      rw [hp] at h
      dsimp only at h
      cases hq : scanToQuote rest0 with
      | none =>
        rw [hq] at h
        dsimp only at h
        obtain ⟨pre, c, rest, hs, hmap, hne⟩ := ih l h
        exact ⟨ch :: pre, c, rest, by simp [hs], hmap, hne⟩
      | some l0 =>
        rw [hq] at h
        dsimp only at h
        by_cases hl0 : l0 = []
        · rw [if_pos hl0] at h
          obtain ⟨pre, c, rest, hs, hmap, hne⟩ := ih l h
          exact ⟨ch :: pre, c, rest, by simp [hs], hmap, hne⟩
        · rw [if_neg hl0] at h
          obtain ⟨hl⟩ := h
          obtain ⟨c, hc, hmap⟩ := ciMatchPrefix_sound _ _ _ hp
          obtain ⟨rest, hrest⟩ := scanToQuote_sound _ _ hq
          refine ⟨[], c, rest, ?_, hmap, hl0⟩
          simp [hc, hrest, List.append_assoc]

/-- C9: `extractRegionFromError` returns a region only when the message
contains the pattern matched case-insensitively with the captured region
being exactly one of the four known region literals: whenever it returns
`r`, the message decomposes as some prefix, then a casing variant of the
pattern text (ending in the opening quote), then the exact characters of
`r`, then the closing quote; on any message admitting no such decomposition
it necessarily returns nothing. -/
theorem extractRegionFromError_sound (msg r : String)
    (h : extractRegionFromError msg = some r) :
    isBrowserbaseRegion r = true ∧
    ∃ pre c rest, msg.data = pre ++ c ++ r.data ++ quoteChar :: rest ∧
      c.map Char.toLower = regionPattern ∧ r.data ≠ [] := by
  unfold extractRegionFromError at h
  cases hm : regionMatchFrom msg.data with
  | none => rw [hm] at h; exact absurd h (by simp)
  | some l =>
    rw [hm] at h
    dsimp only at h
    by_cases hb : isBrowserbaseRegion (String.mk l) = true
    · rw [if_pos hb] at h
      obtain ⟨hl⟩ := h
      obtain ⟨pre, c, rest, hs, hmap, hne⟩ := regionMatchFrom_sound _ _ hm
      exact ⟨hb, pre, c, rest, hs, hmap, hne⟩
    · rw [if_neg hb] at h
      exact absurd h (by simp)

/-- Witness for C9: on the concrete message naming us-east-1 the parser
returns that region, and the promised decomposition of the message holds. -/
theorem extractRegionFromError_sound_witness :
    isBrowserbaseRegion "us-east-1" = true ∧
    ∃ pre c rest,
      (mismatchMsg "us-east-1").data =
        pre ++ c ++ ("us-east-1").data ++ quoteChar :: rest ∧
      c.map Char.toLower = regionPattern ∧ ("us-east-1").data ≠ [] :=
  extractRegionFromError_sound (mismatchMsg "us-east-1") "us-east-1" (by decide)

/-! ### The Retry Orchestrator

`runWithRegionRetry` wraps one region-scoped remote call.  The wrapped
operation becomes an oracle from the attempted region to an `Except`
outcome whose error is the thrown message; the database is threaded
explicitly; the caller-supplied `onRegionResolved` hook acts on a
caller-state of arbitrary type; and the orchestrator records a trace of
the attempts it issues, the store writes it performs, and the hook
invocations it makes, in order. -/

/-- One observable step of an orchestrated call. -/
inductive CoreEvent
  | attempt (region : Option String)
  | upsertW (patch : SessionPatch)
  | hookCall (region : String)
deriving DecidableEq, Repr

/-- Result of an orchestrated call: the operation outcome, the database
after the call, the hook state after the call, and the event trace. -/
structure RetryOutcome (T : Type) (A : Type) where
  result : Except String T
  db : List SessionRecord
  hookState : A
  events : List CoreEvent
deriving Repr

/-- `runWithRegionRetry`: try the operation once with the initial region; on
failure, parse a region out of the error message; if none parses, or the
parsed region equals the region just tried, rethrow the original error;
otherwise upsert the session record with the parsed region (keeping it
active), invoke the region-resolved hook, and run the operation exactly once
more with the parsed region, whose outcome is final. -/
def runWithRegionRetry {T A : Type} (db : List SessionRecord) (now : Nat)
    (sessionId : String) (initialRegion : Option String)
    (a : A) (onRegionResolved : String → A → A)
    (run : Option String → Except String T) : RetryOutcome T A :=
  match run initialRegion with
  | .ok t => ⟨.ok t, db, a, [.attempt initialRegion]⟩
  | .error msg =>
    match extractRegionFromError msg with
    | none => ⟨.error msg, db, a, [.attempt initialRegion]⟩
    | some r =>
      if some r = initialRegion then ⟨.error msg, db, a, [.attempt initialRegion]⟩
      else
        let patch : SessionPatch :=
          { sessionId := sessionId, region := some r, status := some .active }
        ⟨run (some r), upsertSessionMetadata db patch now, onRegionResolved r a,
         [.attempt initialRegion, .upsertW patch, .hookCall r, .attempt (some r)]⟩

/-- C1: when the first attempt against region R1 fails with a message
embedding a known region R2 different from R1, the orchestrator upserts the
session record with region R2 and invokes the region-resolved hook, and only
then issues exactly one more attempt, with R2; the outcome of that second
attempt, success or failure, is the final result, and no third attempt
exists in the trace. -/
theorem runWithRegionRetry_mismatch_retries_once {T A : Type}
    (db : List SessionRecord) (now : Nat) (sid : String) (r1 : Option String)
    (a : A) (hook : String → A → A) (run : Option String → Except String T)
    (msg : String) (r2 : String)
    (hfail : run r1 = .error msg)
    (hparse : extractRegionFromError msg = some r2)
    (hne : some r2 ≠ r1) :
    runWithRegionRetry db now sid r1 a hook run =
      ⟨run (some r2),
       upsertSessionMetadata db
         { sessionId := sid, region := some r2, status := some .active } now,
       hook r2 a,
       [.attempt r1,
        .upsertW { sessionId := sid, region := some r2, status := some .active },
        .hookCall r2, .attempt (some r2)]⟩ := by
  unfold runWithRegionRetry
  rw [hfail]
  dsimp only
  rw [hparse]
  dsimp only
  rw [if_neg hne]

/-- Witness for C1: a concrete operation that fails against us-west-2 naming
us-east-1 and succeeds there; only the retried attempt's success is
returned, after the store write and the hook call. -/
theorem runWithRegionRetry_mismatch_retries_once_witness :
    runWithRegionRetry (T := Nat) (A := List String) [] 5 "sess-1"
        (some "us-west-2") [] (fun r l => r :: l)
        (fun reg => if reg = some "us-east-1" then .ok 7
                    else .error (mismatchMsg "us-east-1")) =
      ⟨(fun reg => if reg = some "us-east-1" then .ok 7
                   else .error (mismatchMsg "us-east-1")) (some "us-east-1"),
       upsertSessionMetadata []
         { sessionId := "sess-1", region := some "us-east-1",
           status := some .active } 5,
       (fun r l => r :: l) "us-east-1" [],
       [.attempt (some "us-west-2"),
        .upsertW { sessionId := "sess-1", region := some "us-east-1",
                   status := some .active },
        .hookCall "us-east-1", .attempt (some "us-east-1")]⟩ :=
  runWithRegionRetry_mismatch_retries_once [] 5 "sess-1" (some "us-west-2")
    [] (fun r l => r :: l)
    (fun reg => if reg = some "us-east-1" then .ok 7
                else .error (mismatchMsg "us-east-1"))
    (mismatchMsg "us-east-1") "us-east-1" rfl (by decide) (by decide)

/-- C2: when the first attempt fails and either no region parses from the
error or the parsed region equals the region just tried, the original
failure propagates unchanged, the store and hook state are untouched, and
the trace holds exactly one attempt. -/
theorem runWithRegionRetry_no_retry {T A : Type}
    (db : List SessionRecord) (now : Nat) (sid : String) (r1 : Option String)
    (a : A) (hook : String → A → A) (run : Option String → Except String T)
    (msg : String)
    (hfail : run r1 = .error msg)
    (hstop : extractRegionFromError msg = none ∨ extractRegionFromError msg = r1) :
    runWithRegionRetry db now sid r1 a hook run =
      ⟨.error msg, db, a, [.attempt r1]⟩ := by
  unfold runWithRegionRetry
  rw [hfail]
  dsimp only
  rcases hstop with h | h
  · rw [h]
  · cases hr : extractRegionFromError msg with
    | none => rfl
    | some r =>
      dsimp only
      rw [if_pos (hr ▸ h)]

/-- Witness for C2: a failure whose message embeds no region is rethrown
unchanged after a single attempt. -/
theorem runWithRegionRetry_no_retry_witness :
    runWithRegionRetry (T := Nat) (A := List String) [] 5 "sess-1"
        (some "us-west-2") [] (fun r l => r :: l)
        (fun _ => .error "connection reset") =
      ⟨.error "connection reset", [], [], [.attempt (some "us-west-2")]⟩ :=
  runWithRegionRetry_no_retry [] 5 "sess-1" (some "us-west-2")
    [] (fun r l => r :: l) (fun _ => .error "connection reset")
    "connection reset" rfl (Or.inl (by decide))

/-! ### Session termination with routing -/

/-- Whether an `Except` outcome is a success. -/
def exceptOk {T : Type} : Except String T → Bool
  | .ok _ => true
  | .error _ => false

/-- Result of `endSessionWithRouting`: the reported boolean, the database
after the call, and the event trace. -/
structure EndOutcome where
  ok : Bool
  db : List SessionRecord
  events : List CoreEvent
deriving Repr

/-- The diagnostic message written on a failed termination. -/
def endFailureMsg : String := "Failed to end Stagehand session"

/-- The try/catch continuation of `endSessionWithRouting`: on success of the
orchestrated call, patch the record to completed with an end timestamp and
report true; on failure, patch it to error with the diagnostic message and
report false.  `out.hookState` is the resolved region as updated by the
region-resolved hook. -/
def finalizeEnd (sessionId : String) (now : Nat)
    (out : RetryOutcome Unit String) : EndOutcome :=
  match out.result with
  | .ok _ =>
    let patch : SessionPatch :=
      { sessionId := sessionId, region := some out.hookState,
        status := some .completed, endedAt := some now }
    ⟨true, upsertSessionMetadata out.db patch now, out.events ++ [.upsertW patch]⟩
  | .error _ =>
    let patch : SessionPatch :=
      { sessionId := sessionId, region := some out.hookState,
        status := some .error, error := some endFailureMsg }
    ⟨false, upsertSessionMetadata out.db patch now, out.events ++ [.upsertW patch]⟩

/-- `endSessionWithRouting`: resolve the region (stored, then fallback, then
the default), run the wire end-session call under the retry orchestrator
with a hook that updates the resolved region, then patch the record to
completed with an end timestamp on success, or to error with a diagnostic
message on failure; report a boolean, never a thrown error. -/
def endSessionWithRouting (db : List SessionRecord) (now : Nat)
    (sessionId : String) (fallbackRegion : Option String)
    (endAttempt : Option String → Except String Unit) : EndOutcome :=
  let resolved0 :=
    (resolveSessionRegion db sessionId fallbackRegion).getD DEFAULT_BROWSERBASE_REGION
  finalizeEnd sessionId now
    (runWithRegionRetry db now sessionId (some resolved0) resolved0
      (fun r _ => r) endAttempt)

/-- The public `endSession` action: builds the credentials bundle, calls
`endSessionWithRouting` with no fallback region, and returns the boolean as
its `success` field. -/
def endSessionAction (db : List SessionRecord) (now : Nat) (sessionId : String)
    (endAttempt : Option String → Except String Unit) : Bool × List SessionRecord :=
  let out := endSessionWithRouting db now sessionId none endAttempt
  (out.ok, out.db)

/-- After an upsert, the record under the patched session id exists, and its
status is the patched one (defaulting to the pre-existing status, or active
on insert); a patched end timestamp, error message and region are present on
the record. -/
theorem findSession_upsert (db : List SessionRecord) (p : SessionPatch) (now : Nat) :
    ∃ rec, findSession (upsertSessionMetadata db p now) p.sessionId = some rec ∧
      rec.sessionId = p.sessionId ∧
      rec.status = p.status.getD
        (match findSession db p.sessionId with
         | some old => old.status
         | none => .active) ∧
      (∀ e, p.endedAt = some e → rec.endedAt = some e) ∧
      (∀ m, p.error = some m → rec.error = some m) ∧
      (∀ r, p.region = some r → rec.region = some r) := by
  induction db with
  | nil =>
    refine ⟨freshRecord p now, ?_, rfl, ?_, ?_, ?_, ?_⟩
    · simp [upsertSessionMetadata, findSession, List.find?, freshRecord]
    · simp [findSession, freshRecord]
    · intro e he; simp [freshRecord, he]
    · intro m hm; simp [freshRecord, hm]
    · intro r hr; simp [freshRecord, hr]
  | cons hd tl ih =>
    by_cases hh : hd.sessionId = p.sessionId
    · have hb : (hd.sessionId == p.sessionId) = true := by simp [hh]
      refine ⟨applyPatch hd p, ?_, ?_, ?_, ?_, ?_, ?_⟩
      · simp [upsertSessionMetadata, hh, findSession, List.find?, applyPatch, hb]
      · simp [applyPatch, hh]
      · simp [findSession, List.find?, hb, applyPatch]
      · intro e he; simp [applyPatch, he]
      · intro m hm; simp [applyPatch, hm]
      · intro r hr; simp [applyPatch, hr]
    · have hb : (hd.sessionId == p.sessionId) = false := by simp [hh]
      obtain ⟨rec, hfind, hsid, hstat, hend, herr, hreg⟩ := ih
      refine ⟨rec, ?_, hsid, ?_, hend, herr, hreg⟩
      · simpa [upsertSessionMetadata, hh, findSession, List.find?, hb] using hfind
      · simpa [findSession, List.find?, hb] using hstat

/-- If every attempt of the wrapped operation fails, the orchestrated call's
result is a failure. -/
theorem runWithRegionRetry_all_fail {T A : Type}
    (db : List SessionRecord) (now : Nat) (sid : String) (r1 : Option String)
    (a : A) (hook : String → A → A) (run : Option String → Except String T)
    (hfail : ∀ reg, exceptOk (run reg) = false) :
    exceptOk (runWithRegionRetry db now sid r1 a hook run).result = false := by
  unfold runWithRegionRetry
  cases h1 : run r1 with
  | ok t => have := hfail r1; rw [h1] at this; simp [exceptOk] at this
  | error msg =>
    dsimp only
    cases h2 : extractRegionFromError msg with
    | none => simp [exceptOk]
    | some r =>
      dsimp only
      by_cases he : some r = r1
      · rw [if_pos he]; rfl
      · rw [if_neg he]
        exact hfail (some r)

/-- The finalization step always leaves a record for the session id whose
status, end timestamp and error message reflect the reported boolean, and
the boolean is exactly the success of the orchestrated call. -/
theorem finalizeEnd_spec (sid : String) (now : Nat) (out : RetryOutcome Unit String) :
    (∃ rec, findSession (finalizeEnd sid now out).db sid = some rec ∧
      (((finalizeEnd sid now out).ok = true ∧
          rec.status = .completed ∧ rec.endedAt = some now) ∨
       ((finalizeEnd sid now out).ok = false ∧
          rec.status = .error ∧ rec.error = some endFailureMsg ∧
          endFailureMsg ≠ ""))) ∧
    (finalizeEnd sid now out).ok = exceptOk out.result := by
  cases hres : out.result with
  | ok t =>
    constructor
    · obtain ⟨rec, hfind, _, hstat, hend, _, _⟩ := findSession_upsert out.db
        { sessionId := sid, region := some out.hookState,
          status := some .completed, endedAt := some now } now
      refine ⟨rec, ?_, Or.inl ⟨?_, by simpa using hstat, hend now rfl⟩⟩
      · simpa [finalizeEnd, hres] using hfind
      · simp [finalizeEnd, hres]
    · simp [finalizeEnd, hres, exceptOk]
  | error m =>
    constructor
    · obtain ⟨rec, hfind, _, hstat, _, herr, _⟩ := findSession_upsert out.db
        { sessionId := sid, region := some out.hookState,
          status := some .error, error := some endFailureMsg } now
      refine ⟨rec, ?_, Or.inr ⟨?_, by simpa using hstat, herr _ rfl, by decide⟩⟩
      · simpa [finalizeEnd, hres] using hfind
      · simp [finalizeEnd, hres]
    · simp [finalizeEnd, hres, exceptOk]

/-- C3: session termination never throws: it is a total function into a
boolean.  The session record always exists afterwards; when the boolean is
true the record is completed with an end timestamp, and when it is false the
record is in error status with a non-empty diagnostic message.  When every
attempt (the first and any retry) fails, the boolean is false, and the
public end-session action reports exactly this boolean as its success
field. -/
theorem endSessionWithRouting_reports_bool (db : List SessionRecord) (now : Nat)
    (sid : String) (fallback : Option String)
    (endAttempt : Option String → Except String Unit) :
    (∃ rec,
      findSession (endSessionWithRouting db now sid fallback endAttempt).db sid =
        some rec ∧
      (((endSessionWithRouting db now sid fallback endAttempt).ok = true ∧
          rec.status = .completed ∧ rec.endedAt = some now) ∨
       ((endSessionWithRouting db now sid fallback endAttempt).ok = false ∧
          rec.status = .error ∧ rec.error = some endFailureMsg ∧
          endFailureMsg ≠ ""))) ∧
    ((∀ reg, exceptOk (endAttempt reg) = false) →
      (endSessionWithRouting db now sid fallback endAttempt).ok = false) ∧
    (endSessionAction db now sid endAttempt).1 =
      (endSessionWithRouting db now sid none endAttempt).ok := by
  refine ⟨?_, ?_, rfl⟩
  · exact (finalizeEnd_spec sid now _).1
  · intro hfail
    have hok := (finalizeEnd_spec sid now
      (runWithRegionRetry db now sid
        (some ((resolveSessionRegion db sid fallback).getD DEFAULT_BROWSERBASE_REGION))
        ((resolveSessionRegion db sid fallback).getD DEFAULT_BROWSERBASE_REGION)
        (fun r _ => r) endAttempt)).2
    have hres := runWithRegionRetry_all_fail db now sid
      (some ((resolveSessionRegion db sid fallback).getD DEFAULT_BROWSERBASE_REGION))
      ((resolveSessionRegion db sid fallback).getD DEFAULT_BROWSERBASE_REGION)
      (fun r _ => r) endAttempt hfail
    exact hok.trans hres

/-- Witness for C3: with every attempt failing on a plain error, the call
returns false rather than throwing, both directly and through the action. -/
theorem endSessionWithRouting_reports_bool_witness :
    (∃ rec, findSession
        (endSessionWithRouting [] 4 "sess-1" none (fun _ => .error "boom")).db
        "sess-1" = some rec ∧
      (((endSessionWithRouting [] 4 "sess-1" none (fun _ => .error "boom")).ok = true ∧
          rec.status = .completed ∧ rec.endedAt = some 4) ∨
       ((endSessionWithRouting [] 4 "sess-1" none (fun _ => .error "boom")).ok = false ∧
          rec.status = .error ∧ rec.error = some endFailureMsg ∧
          endFailureMsg ≠ ""))) ∧
    (endSessionWithRouting [] 4 "sess-1" none (fun _ => .error "boom")).ok = false := by
  have h := endSessionWithRouting_reports_bool [] 4 "sess-1" none
    (fun _ => .error "boom")
  exact ⟨h.1, h.2.1 (fun _ => rfl)⟩

/-! ### Status transitions across store writes

The event traces record every store write an orchestrated call performs, so
the successive database states — and with them the successive values of a
record's status — can be replayed from a trace. -/

/-- The successive database states along a trace: the initial state, then
one further state per store write. -/
def dbStates (db : List SessionRecord) (now : Nat) :
    List CoreEvent → List (List SessionRecord)
  | [] => [db]
  | .upsertW p :: es => db :: dbStates (upsertSessionMetadata db p now) now es
  | .attempt _ :: es => dbStates db now es
  | .hookCall _ :: es => dbStates db now es

/-- The status of the record for a session id in each successive database
state along a trace (`none` while no record exists). -/
def statusTrace (sid : String) (db : List SessionRecord) (now : Nat)
    (es : List CoreEvent) : List (Option SessionStatus) :=
  (dbStates db now es).map (fun d => (findSession d sid).map SessionRecord.status)

/-- A single status transition is forward when it starts from no record or
an active record, or does not change a terminal status. -/
def statusForward : Option SessionStatus → Option SessionStatus → Bool
  | none, _ => true
  | some .active, _ => true
  | some .completed, some .completed => true
  | some .error, some .error => true
  | _, _ => false

/-- Every adjacent transition in the list is forward. -/
def forwardChain : List (Option SessionStatus) → Bool
  | [] => true
  | [_] => true
  | a :: b :: rest => statusForward a b && forwardChain (b :: rest)

/-- C6 counterexample: a session ended while the service is unreachable
leaves its record in error status; a second termination call on the same
session whose first attempt fails naming a different region performs the
retry bookkeeping write, which sets the record back to active — a terminal
status reverting to active, which is not a forward transition.  Both calls
are public core operations, so the claimed invariant fails on this concrete
write sequence. -/
theorem sessionStatus_not_monotonic_counterexample :
    (findSession ((endSessionWithRouting [] 0 "sess-1" none
        (fun _ => .error "boom")).db) "sess-1").map SessionRecord.status =
      some .error ∧
    statusTrace "sess-1"
      ((endSessionWithRouting [] 0 "sess-1" none (fun _ => .error "boom")).db) 1
      ((endSessionWithRouting
          ((endSessionWithRouting [] 0 "sess-1" none (fun _ => .error "boom")).db)
          1 "sess-1" none
          (fun reg => if reg = some "eu-central-1" then .error "still failing"
                      else .error (mismatchMsg "eu-central-1"))).events) =
      [some .error, some .active, some .error] ∧
    statusForward (some .error) (some .active) = false := by
  refine ⟨by decide, by decide, rfl⟩

/-- Every forward step out of no record or an active record holds. -/
theorem statusForward_of_start (s t : Option SessionStatus)
    (h : s = none ∨ s = some .active) : statusForward s t = true := by
  rcases h with h | h <;> subst h <;> rfl

/-- C6 amended: within a single session-termination call starting from a
state where the record for the session id is absent or active, the record's
status makes only forward transitions across the call's successive store
writes (active to completed or active to error, never leaving a terminal
status).  Operations invoked on an already-terminal record are not covered:
a repeated termination can overwrite one terminal status with the other, and
the retry bookkeeping write sets the record active unconditionally, as the
counterexample shows. -/
theorem endSessionWithRouting_status_monotone (db : List SessionRecord)
    (now : Nat) (sid : String) (fallback : Option String)
    (endAttempt : Option String → Except String Unit)
    (h0 : ∀ rec, findSession db sid = some rec → rec.status = .active) :
    forwardChain (statusTrace sid db now
      (endSessionWithRouting db now sid fallback endAttempt).events) = true := by
  have hs0 : (findSession db sid).map SessionRecord.status = none ∨
      (findSession db sid).map SessionRecord.status = some .active := by
    cases hf : findSession db sid with
    | none => exact Or.inl rfl
    | some rec => exact Or.inr (by simp [h0 rec hf])
  unfold endSessionWithRouting finalizeEnd runWithRegionRetry
  dsimp only
  cases h1 : endAttempt (some ((resolveSessionRegion db sid fallback).getD
      DEFAULT_BROWSERBASE_REGION)) with
  | ok t =>
    dsimp only
    simp only [statusTrace, dbStates, List.map, forwardChain, Bool.and_eq_true]
    exact ⟨statusForward_of_start _ _ hs0, trivial⟩
  | error msg =>
    dsimp only
    cases h2 : extractRegionFromError msg with
    | none =>
      dsimp only
      simp only [statusTrace, dbStates, List.map, forwardChain, Bool.and_eq_true]
      exact ⟨statusForward_of_start _ _ hs0, trivial⟩
    | some r =>
      dsimp only
      by_cases he : some r = some ((resolveSessionRegion db sid fallback).getD
          DEFAULT_BROWSERBASE_REGION)
      · rw [if_pos he]
        cases h3 : endAttempt (some r) <;>
          · dsimp only
            simp only [statusTrace, dbStates, List.map, forwardChain,
              Bool.and_eq_true]
            exact ⟨statusForward_of_start _ _ hs0, trivial⟩
      · rw [if_neg he]
        have hmid : (findSession (upsertSessionMetadata db
            { sessionId := sid, region := some r, status := some .active } now)
            sid).map SessionRecord.status = some .active := by
          obtain ⟨rec, hfind, _, hstat, _, _, _⟩ := findSession_upsert db
            { sessionId := sid, region := some r, status := some .active } now
          simp only [Option.getD] at hstat
          simp [hfind, hstat]
        cases h3 : endAttempt (some r) <;>
          · dsimp only
            simp only [statusTrace, dbStates, List.map, forwardChain,
              Bool.and_eq_true, hmid]
            refine ⟨statusForward_of_start _ _ hs0, ?_, trivial⟩
            rfl

/-- Witness for C6 amended: a termination call from an empty store (no
record yet) produces a forward-only status trace. -/
theorem endSessionWithRouting_status_monotone_witness :
    forwardChain (statusTrace "sess-1" [] 0
      (endSessionWithRouting [] 0 "sess-1" none
        (fun _ => .error "boom")).events) = true :=
  endSessionWithRouting_status_monotone [] 0 "sess-1" none
    (fun _ => .error "boom")
    (fun rec h => by simp [findSession, List.find?] at h)

/-! ### The wire client

Each wire operation issues a single HTTP POST and parses the response as
`{success, data}`.  The response is modeled as a record carrying the HTTP
status, the raw body text, the parsed `success` flag and the typed `data`;
request bodies are modeled as ordered key/value lists at JSON top level,
with keys whose values are `undefined` omitted, as `JSON.stringify` does. -/

/-- A JSON value at the granularity the claims need: a string, or some
other opaque JSON payload. -/
inductive BodyVal
  | str (s : String)
  | obj
deriving DecidableEq, Repr

/-- One HTTP request as the wire client builds it. -/
structure WireRequest where
  url : String
  body : List (String × BodyVal)
deriving DecidableEq, Repr

/-- First value under a key in a request body. -/
def bodyLookup (k : String) : List (String × BodyVal) → Option BodyVal
  | [] => none
  | (k2, v) :: rest => if k2 = k then some v else bodyLookup k rest

/-- An HTTP response as `handleResponse` consumes it. -/
structure ApiHttpResponse (T : Type) where
  status : Nat
  bodyText : String
  success : Bool
  data : T

/-- `response.ok` of the fetch API: status in the 2xx range. -/
def responseOk {T : Type} (r : ApiHttpResponse T) : Bool :=
  decide (200 ≤ r.status ∧ r.status < 300)

/-- `handleResponse`: a non-2xx status raises an error carrying the status
and the raw body text; a parsed body with `success` not true raises a fixed
error; otherwise the typed `data` is returned unchanged. -/
def handleResponse {T : Type} (r : ApiHttpResponse T) : Except String T :=
  if responseOk r = false then
    .error ("Stagehand API error (" ++ toString r.status ++ "): " ++ r.bodyText)
  else if r.success = false then
    .error "Stagehand API returned success: false"
  else
    .ok r.data

/-- `(a ++ b).data = a.data ++ b.data` for strings. -/
theorem data_append (a b : String) : (a ++ b).data = a.data ++ b.data := rfl

/-- Two suffixes of one list with the same length are equal. -/
theorem suffix_eq_of_length {α : Type} {l1 l2 L : List α}
    (h1 : l1 <:+ L) (h2 : l2 <:+ L) (h : l1.length = l2.length) : l1 = l2 := by
  obtain ⟨t1, e1⟩ := h1
  obtain ⟨t2, e2⟩ := h2
  have e : t1 ++ l1 = t2 ++ l2 := e1.trans e2.symm
  have el := congrArg List.length e
  simp only [List.length_append] at el
  exact List.append_inj_right e (by omega)

/-- The `act` request body: the instruction string under the key `input`,
plus an `options` object when any of model, variables, timeout is set. -/
def actBody (a : String) (o1 o2 : Option BodyVal) (o3 : Option Nat) :
    List (String × BodyVal) :=
  ("input", .str a) ::
    (if o1.isSome || o2.isSome || o3.isSome then [("options", .obj)] else [])

/-- The single request issued by the wire `act` operation. -/
def actRequest (sessionId a : String) (o1 o2 : Option BodyVal) (o3 : Option Nat)
    (region : Option String) : WireRequest :=
  { url := getApiBase region ++ "/sessions/" ++ sessionId ++ "/act"
    body := actBody a o1 o2 o3 }

/-- The single request issued by the wire `agentExecute` operation; the
`agentConfig` and `executeOptions` objects are always present, `shouldCache`
only when defined. -/
def agentExecuteRequest (sessionId : String) (shouldCache : Option Bool)
    (region : Option String) : WireRequest :=
  { url := getApiBase region ++ "/sessions/" ++ sessionId ++ "/agentExecute"
    body := [("agentConfig", .obj), ("executeOptions", .obj)] ++
      (if shouldCache.isSome then [("shouldCache", .obj)] else []) }

/-- The `extract` request body. -/
def extractBody (instruction : String) (o1 : Option BodyVal) (o2 : Option Nat)
    (o3 : Option String) : List (String × BodyVal) :=
  ("instruction", .str instruction) :: ("schema", .obj) ::
    (if o1.isSome || o2.isSome || o3.isSome then [("options", .obj)] else [])

/-- The `observe` request body. -/
def observeBody (instruction : String) (o1 : Option BodyVal) (o2 : Option Nat)
    (o3 : Option String) : List (String × BodyVal) :=
  ("instruction", .str instruction) ::
    (if o1.isSome || o2.isSome || o3.isSome then [("options", .obj)] else [])

/-- The `navigate` request body: the url and an options object, always. -/
def navigateBody (url : String) : List (String × BodyVal) :=
  [("url", .str url), ("options", .obj)]

/-- The requests issued by one wire `endSession` call: exactly one POST to
the `/end` endpoint, with no body. -/
def endSessionRequests (sessionId : String) (region : Option String) :
    List WireRequest :=
  [{ url := getApiBase region ++ "/sessions/" ++ sessionId ++ "/end", body := [] }]

/-- The Credentials/Config bundle attached to every wire call. -/
structure ApiConfig where
  browserbaseApiKey : String
  browserbaseProjectId : String
  modelApiKey : String
  modelName : Option String := none
deriving DecidableEq, Repr

/-- One optional top-level key of a JSON body: omitted when undefined. -/
def optEntry (k : String) (v : Option BodyVal) : List (String × BodyVal) :=
  match v with
  | some b => [(k, b)]
  | none => []

/-- The start-session request body: `modelName` is the configured name, or
the literal default when the configured name is absent or the empty string
(the JavaScript `config.modelName || "openai/gpt-4o"`); every other key is
present only when its option is defined. -/
def startSessionBody (cfg : ApiConfig)
    (bbSessionID : Option String) (bbCreateParams : Option BodyVal)
    (domSettleTimeoutMs : Option Nat) (selfHeal : Option Bool)
    (systemPrompt : Option String) (verbose : Option Nat)
    (experimental : Option Bool) : List (String × BodyVal) :=
  ("modelName", .str (match cfg.modelName with
    | none => "openai/gpt-4o"
    | some m => if m = "" then "openai/gpt-4o" else m)) ::
  (optEntry "browserbaseSessionID" (bbSessionID.map .str) ++
   optEntry "browserbaseSessionCreateParams" bbCreateParams ++
   optEntry "domSettleTimeoutMs" (domSettleTimeoutMs.map fun _ => .obj) ++
   optEntry "selfHeal" (selfHeal.map fun _ => .obj) ++
   optEntry "systemPrompt" (systemPrompt.map .str) ++
   optEntry "verbose" (verbose.map fun _ => .obj) ++
   optEntry "experimental" (experimental.map fun _ => .obj))

/-- C7 counterexample: a 2xx response whose body has `success: false` makes
the call fail, but the raised error is a fixed message that carries neither
the HTTP status nor the raw body text — contradicting the claim that the
raised error always carries both. -/
theorem handleResponse_error_payload_counterexample :
    handleResponse ⟨200, "BODYTEXT", false, (0 : Nat)⟩ =
      .error "Stagehand API returned success: false" ∧
    ¬ ("BODYTEXT".data <:+: "Stagehand API returned success: false".data) ∧
    ¬ ("200".data <:+: "Stagehand API returned success: false".data) := by
  refine ⟨rfl, by decide, by decide⟩

/-- C7 amended: a wire call fails exactly when the HTTP status is not 2xx or
the body's `success` field is not true; a non-2xx failure's error carries the
HTTP status and the raw body text, while a `success: false` failure's error
is the fixed diagnostic (carrying neither); otherwise the typed data is
returned unchanged; and one wire end-session invocation issues exactly one
HTTP request. -/
theorem handleResponse_amended {T : Type} (r : ApiHttpResponse T)
    (sessionId : String) (region : Option String) :
    ((∃ m, handleResponse r = .error m) ↔
      (responseOk r = false ∨ r.success = false)) ∧
    (responseOk r = false →
      ∃ m, handleResponse r = .error m ∧
        (toString r.status).data <:+: m.data ∧ r.bodyText.data <:+: m.data) ∧
    (responseOk r = true → r.success = false →
      handleResponse r = .error "Stagehand API returned success: false") ∧
    (responseOk r = true → r.success = true → handleResponse r = .ok r.data) ∧
    (endSessionRequests sessionId region).length = 1 := by
  refine ⟨⟨?_, ?_⟩, ?_, ?_, ?_, rfl⟩
  · rintro ⟨m, hm⟩
    cases hok : responseOk r with
    | false => exact Or.inl rfl
    | true =>
      cases hsucc : r.success with
      | false => exact Or.inr rfl
      | true => simp [handleResponse, hok, hsucc] at hm
  · intro h
    rcases h with h | h
    · exact ⟨"Stagehand API error (" ++ toString r.status ++ "): " ++ r.bodyText,
        by simp [handleResponse, h]⟩
    · cases hok : responseOk r with
      | false =>
        exact ⟨"Stagehand API error (" ++ toString r.status ++ "): " ++ r.bodyText,
          by simp [handleResponse, hok]⟩
      | true =>
        exact ⟨"Stagehand API returned success: false",
          by simp [handleResponse, hok, h]⟩
  · intro hok
    refine ⟨"Stagehand API error (" ++ toString r.status ++ "): " ++ r.bodyText,
      by simp [handleResponse, hok], ?_, ?_⟩
    · refine ⟨("Stagehand API error (").data,
        ("): " ++ r.bodyText).data, ?_⟩
      simp [data_append, List.append_assoc]
    · refine ⟨("Stagehand API error (" ++ toString r.status ++ "): ").data,
        [], ?_⟩
      simp [data_append, List.append_assoc]
  · intro hok hsucc
    simp [handleResponse, hok, hsucc]
  · intro hok hsucc
    simp [handleResponse, hok, hsucc]

/-- Witness for C7 amended: a concrete 404 response fails with an error
message that contains both the status digits and the raw body text. -/
theorem handleResponse_amended_witness :
    ∃ m, handleResponse ⟨404, "not found", true, (0 : Nat)⟩ = .error m ∧
      (toString (404 : Nat)).data <:+: m.data ∧
      ("not found").data <:+: m.data :=
  (handleResponse_amended ⟨404, "not found", true, (0 : Nat)⟩ "sess-1" none).2.1 rfl

/-- C8: every wire `act` request body holds the instruction string under the
key `input` and holds no key `action`; and every wire agent request URL ends
with the suffix `/agentExecute` and does not end with `agent/execute`. -/
theorem act_input_and_agent_url (sessionId a : String)
    (o1 o2 : Option BodyVal) (o3 : Option Nat)
    (region : Option String) (shouldCache : Option Bool) :
    ("input", BodyVal.str a) ∈ (actRequest sessionId a o1 o2 o3 region).body ∧
    (∀ v : BodyVal, ("action", v) ∉ (actRequest sessionId a o1 o2 o3 region).body) ∧
    ("/agentExecute").data <:+
      (agentExecuteRequest sessionId shouldCache region).url.data ∧
    ¬ (("agent/execute").data <:+
      (agentExecuteRequest sessionId shouldCache region).url.data) := by
  refine ⟨?_, ?_, ?_, ?_⟩
  · simp [actRequest, actBody]
  · intro v hv
    by_cases hc : (o1.isSome || o2.isSome || o3.isSome) = true <;>
      simp [actRequest, actBody, hc] at hv
  · exact ⟨(getApiBase region ++ "/sessions/" ++ sessionId).data,
      (data_append _ _).symm⟩
  · intro hbad
    have hgood : ("/agentExecute").data <:+
        (agentExecuteRequest sessionId shouldCache region).url.data :=
      ⟨(getApiBase region ++ "/sessions/" ++ sessionId).data,
        (data_append _ _).symm⟩
    have heq := suffix_eq_of_length hbad hgood (by decide)
    exact absurd heq (by decide)

/-- Witness for C8 at concrete arguments. -/
theorem act_input_and_agent_url_witness :
    ("input", BodyVal.str "click the button") ∈
      (actRequest "sess-1" "click the button" none none none none).body :=
  (act_input_and_agent_url "sess-1" "click the button" none none none
    none none).1

/-- C10: the start-session request body's `modelName` is the literal default
when the configured model name is absent or empty, and the configured name
unchanged otherwise; no other wire operation's body holds a `modelName` key
at all, so no other operation substitutes a model-name default. -/
theorem startSession_modelName_spec (cfg : ApiConfig)
    (bbSessionID : Option String) (bbCreateParams : Option BodyVal)
    (domSettleTimeoutMs : Option Nat) (selfHeal : Option Bool)
    (systemPrompt : Option String) (verbose : Option Nat)
    (experimental : Option Bool)
    (instruction url a sessionId : String)
    (e1 : Option BodyVal) (e2 : Option Nat) (e3 : Option String)
    (b1 : Option BodyVal) (b2 : Option Nat) (b3 : Option String)
    (a1 a2 : Option BodyVal) (a3 : Option Nat)
    (shouldCache : Option Bool) (region : Option String) :
    (cfg.modelName = none ∨ cfg.modelName = some "" →
      bodyLookup "modelName" (startSessionBody cfg bbSessionID bbCreateParams
          domSettleTimeoutMs selfHeal systemPrompt verbose experimental) =
        some (.str "openai/gpt-4o")) ∧
    (∀ m, cfg.modelName = some m → m ≠ "" →
      bodyLookup "modelName" (startSessionBody cfg bbSessionID bbCreateParams
          domSettleTimeoutMs selfHeal systemPrompt verbose experimental) =
        some (.str m)) ∧
    bodyLookup "modelName" (extractBody instruction e1 e2 e3) = none ∧
    bodyLookup "modelName" (observeBody instruction b1 b2 b3) = none ∧
    bodyLookup "modelName" (actBody a a1 a2 a3) = none ∧
    bodyLookup "modelName" (navigateBody url) = none ∧
    bodyLookup "modelName"
      (agentExecuteRequest sessionId shouldCache region).body = none := by
  refine ⟨?_, ?_, ?_, ?_, ?_, ?_, ?_⟩
  · rintro (h | h) <;> simp [startSessionBody, bodyLookup, h]
  · intro m hm hne
    simp [startSessionBody, bodyLookup, hm, hne]
  · by_cases hc : (e1.isSome || e2.isSome || e3.isSome) = true <;>
      simp [extractBody, bodyLookup, hc]
  · by_cases hc : (b1.isSome || b2.isSome || b3.isSome) = true <;>
      simp [observeBody, bodyLookup, hc]
  · by_cases hc : (a1.isSome || a2.isSome || a3.isSome) = true <;>
      simp [actBody, bodyLookup, hc]
  · simp [navigateBody, bodyLookup]
  · cases shouldCache <;> simp [agentExecuteRequest, bodyLookup]

/-- Witness for C10: an absent configured model name yields the literal
default in the request body. -/
theorem startSession_modelName_spec_witness :
    bodyLookup "modelName"
      (startSessionBody
        { browserbaseApiKey := "k", browserbaseProjectId := "p",
          modelApiKey := "mk" }
        none none none none none none none) =
      some (.str "openai/gpt-4o") :=
  (startSession_modelName_spec
    { browserbaseApiKey := "k", browserbaseProjectId := "p",
      modelApiKey := "mk" }
    none none none none none none none "i" "u" "a" "s"
    none none none none none none none none none none none).1 (Or.inl rfl)
